import Mathlib

/-!
Verification of the QOI (Quite OK Image) decoder in `src/parser.rs`.

The decoder's data model and operations are embedded shallowly:
bytes are `Nat` values (`< 256` for real inputs), byte slices are
`List Nat`, Rust's `u8` wrapping arithmetic is explicit `% 256`
arithmetic, and the mutable decode state (`prev` pixel plus the
64-entry `seen` cache) is threaded explicitly.  Fallible parsers
return `Except`.  The decode loop consumes at least one byte per
iteration, so it is written with a fuel argument instantiated with
the length of the input; the fuel-exhaustion branch is unreachable
for that instantiation.
-/

/-- A pixel with four 8-bit channels, as in `src/lib.rs` (`Pixel`).
Channel values of real pixels are `< 256`. -/
structure Pixel where
  red : Nat
  green : Nat
  blue : Nat
  alpha : Nat
  deriving DecidableEq

/-- The `Default` pixel (`{0,0,0,0}`), used for the initial cache. -/
def Pixel.zero : Pixel := ⟨0, 0, 0, 0⟩

/-- `Channels` from `src/lib.rs`: 3 = RGB, 4 = RGBA. -/
inductive Channels where
  | Rgb
  | Rgba
  deriving DecidableEq

/-- `Colorspace` from `src/lib.rs`: 0 = sRGB, 1 = linear. -/
inductive Colorspace where
  | Srgb
  | Linear
  deriving DecidableEq

/-- `Header` from `src/lib.rs`. `width` and `height` are `u32` values. -/
structure Header where
  width : Nat
  height : Nat
  channels : Channels
  colorspace : Colorspace
  deriving DecidableEq

/-- `ParserError` from `src/parser.rs`. -/
inductive ParserError where
  | Recoverable
  | Invalid
  deriving DecidableEq

/-- `DecoderError` from `src/parser.rs`. -/
inductive DecoderError where
  | InvalidMagic
  | InvalidChannels
  | InvalidColorspace
  | TooShortHeader
  | InvalidPixel
  | TooFewPixels
  | TooManyPixels
  deriving DecidableEq

deriving instance DecidableEq for Except

/-- `ParserState` from `src/parser.rs`: previous pixel, the 64-slot
`seen` cache, and whether output rows carry an alpha byte. -/
structure ParserState where
  prev : Pixel
  seen : Fin 64 → Pixel
  is_alpha : Bool

/-- `fn u8` from `src/parser.rs`: read one byte from the front. -/
def u8 : List Nat → Except ParserError (Nat × List Nat)
  | [] => .error .Invalid
  | b :: rest => .ok (b, rest)

/-- `fn tag` from `src/parser.rs`: expect the literal bytes `t` at the
front; too little input is a fatal `Invalid`, a mismatch of full
length is `Recoverable`. -/
def tag (t input : List Nat) : Except ParserError (List Nat) :=
  if input.length < t.length then .error .Invalid
  else if input.take t.length = t then .ok (input.drop t.length)
  else .error .Recoverable

/-- `fn be_u32` from `src/parser.rs`: big-endian 32-bit read. -/
def be_u32 : List Nat → Except ParserError (Nat × List Nat)
  | b0 :: b1 :: b2 :: b3 :: rest =>
      .ok (b0 * 16777216 + b1 * 65536 + b2 * 256 + b3, rest)
  | _ => .error .Invalid

/-- 8-bit wrapping addition (`u8::wrapping_add`). -/
def wadd (a b : Nat) : Nat := (a + b) % 256

/-- 8-bit wrapping subtraction (`u8::wrapping_sub`); the second
argument is reduced so the `Nat` subtraction cannot truncate. -/
def wsub (a b : Nat) : Nat := (a + 256 - b % 256) % 256

/-- `fn hash_pixel` from `src/parser.rs`: the index computation is done
in `usize`, which cannot overflow for byte-sized channels, so it is
plain arithmetic followed by `% 64`. -/
def hash_pixel (p : Pixel) : Nat :=
  (p.red * 3 + p.green * 5 + p.blue * 7 + p.alpha * 11) % 64

/-- The cache slot `hash_pixel` selects, as an index into `seen`. -/
def hashFin (p : Pixel) : Fin 64 := ⟨hash_pixel p, Nat.mod_lt _ (by decide)⟩

/-- `fn update_state` from `src/parser.rs`: set `prev` and overwrite the
cache slot at the pixel's hash. -/
def update_state (p : Pixel) (s : ParserState) : ParserState :=
  { s with prev := p, seen := Function.update s.seen (hashFin p) p }

/-- The bytes `push_pixel` emits for one pixel (3 or 4 per pixel). -/
def pixelBytes (p : Pixel) (isAlpha : Bool) : List Nat :=
  if isAlpha then [p.red, p.green, p.blue, p.alpha]
  else [p.red, p.green, p.blue]

/-- `fn push_pixel` from `src/parser.rs`. -/
def push_pixel (pixels : List Nat) (p : Pixel) (isAlpha : Bool) : List Nat :=
  pixels ++ pixelBytes p isAlpha

/-- `fn push_pixels` from `src/parser.rs`: emit `run` copies of the pixel. -/
def push_pixels (pixels : List Nat) (p : Pixel) (run : Nat) (isAlpha : Bool) : List Nat :=
  pixels ++ (List.replicate run (pixelBytes p isAlpha)).flatten

/-- Result type of one opcode attempt: new input, output bytes, new state. -/
abbrev PRes := Except ParserError (List Nat × List Nat × ParserState)

/-- `fn qoi_op_rgb` from `src/parser.rs`. -/
def qoi_op_rgb (input pixels : List Nat) (state : ParserState) : PRes :=
  match tag [254] input with
  | .error e => .error e
  | .ok input =>
    match u8 input with
    | .error e => .error e
    | .ok (red, input) =>
      match u8 input with
      | .error e => .error e
      | .ok (green, input) =>
        match u8 input with
        | .error e => .error e
        | .ok (blue, input) =>
          let pixel : Pixel := ⟨red, green, blue, state.prev.alpha⟩
          .ok (input, push_pixel pixels pixel state.is_alpha, update_state pixel state)

/-- `fn qoi_op_rgba` from `src/parser.rs`. -/
def qoi_op_rgba (input pixels : List Nat) (state : ParserState) : PRes :=
  match tag [255] input with
  | .error e => .error e
  | .ok input =>
    match u8 input with
    | .error e => .error e
    | .ok (red, input) =>
      match u8 input with
      | .error e => .error e
      | .ok (green, input) =>
        match u8 input with
        | .error e => .error e
        | .ok (blue, input) =>
          match u8 input with
          | .error e => .error e
          | .ok (alpha, input) =>
            let pixel : Pixel := ⟨red, green, blue, alpha⟩
            .ok (input, push_pixel pixels pixel state.is_alpha, update_state pixel state)

/-- `fn qoi_op_index` from `src/parser.rs`.  The top-2-bits check
guarantees `byte < 64` for byte-sized input, so the `% 64` in the
lookup only totalises the function on out-of-range values. -/
def qoi_op_index (input pixels : List Nat) (state : ParserState) : PRes :=
  match u8 input with
  | .error e => .error e
  | .ok (byte, input) =>
    if (byte &&& 192) >>> 6 ≠ 0 then .error .Recoverable
    else
      let pixel := state.seen ⟨byte % 64, Nat.mod_lt _ (by decide)⟩
      .ok (input, push_pixel pixels pixel state.is_alpha, update_state pixel state)

/-- `fn qoi_op_diff` from `src/parser.rs`. -/
def qoi_op_diff (input pixels : List Nat) (state : ParserState) : PRes :=
  match u8 input with
  | .error e => .error e
  | .ok (byte, input) =>
    if (byte &&& 192) >>> 6 ≠ 1 then .error .Recoverable
    else
      let dr := wsub ((byte &&& 48) >>> 4) 2
      let dg := wsub ((byte &&& 12) >>> 2) 2
      let db := wsub (byte &&& 3) 2
      let pixel : Pixel :=
        ⟨wadd state.prev.red dr, wadd state.prev.green dg,
         wadd state.prev.blue db, state.prev.alpha⟩
      .ok (input, push_pixel pixels pixel state.is_alpha, update_state pixel state)

/-- `fn qoi_op_luma` from `src/parser.rs`. -/
def qoi_op_luma (input pixels : List Nat) (state : ParserState) : PRes :=
  match u8 input with
  | .error e => .error e
  | .ok (byte1, input) =>
    if (byte1 &&& 192) >>> 6 ≠ 2 then .error .Recoverable
    else
      let dg := wsub (byte1 &&& 63) 32
      match u8 input with
      | .error e => .error e
      | .ok (byte2, input) =>
        let dr := wadd dg (wsub ((byte2 &&& 240) >>> 4) 8)
        let db := wadd dg (wsub (byte2 &&& 15) 8)
        let pixel : Pixel :=
          ⟨wadd state.prev.red dr, wadd state.prev.green dg,
           wadd state.prev.blue db, state.prev.alpha⟩
        .ok (input, push_pixel pixels pixel state.is_alpha, update_state pixel state)

/-- `fn qoi_op_run` from `src/parser.rs`. -/
def qoi_op_run (input pixels : List Nat) (state : ParserState) : PRes :=
  match u8 input with
  | .error e => .error e
  | .ok (byte, input) =>
    if (byte &&& 192) >>> 6 ≠ 3 then .error .Recoverable
    else
      let run := wadd (byte &&& 63) 1
      .ok (input, push_pixels pixels state.prev run state.is_alpha,
           update_state state.prev state)

/-- `fn qoi_op_end` from `src/parser.rs`: the literal 8-byte end marker;
it consumes the marker, emits nothing, and leaves the state unchanged. -/
def qoi_op_end (input pixels : List Nat) (state : ParserState) : PRes :=
  match tag [0, 0, 0, 0, 0, 0, 0, 1] input with
  | .error e => .error e
  | .ok input => .ok (input, pixels, state)

/-- Outcome of one iteration of the decode loop's opcode dispatch. -/
inductive StepResult where
  | ok (newInput pixels : List Nat) (state : ParserState)
  | tooFew
  | invalidPixel

/-- One iteration of the `while` loop in `parse_image_content`: try the
opcode handlers in the source's order (`qoi_op_rgb`, `qoi_op_rgba`,
`qoi_op_end`, `qoi_op_index`, `qoi_op_diff`, `qoi_op_luma`,
`qoi_op_run`); the first `Ok` wins, `Invalid` aborts with
`TooFewPixels`, and if all are `Recoverable` the result is
`InvalidPixel`. -/
def decodeStep (input pixels : List Nat) (state : ParserState) : StepResult :=
  match qoi_op_rgb input pixels state with
  | .ok (i, p, s) => .ok i p s
  | .error .Invalid => .tooFew
  | .error .Recoverable =>
    match qoi_op_rgba input pixels state with
    | .ok (i, p, s) => .ok i p s
    | .error .Invalid => .tooFew
    | .error .Recoverable =>
      match qoi_op_end input pixels state with
      | .ok (i, p, s) => .ok i p s
      | .error .Invalid => .tooFew
      | .error .Recoverable =>
        match qoi_op_index input pixels state with
        | .ok (i, p, s) => .ok i p s
        | .error .Invalid => .tooFew
        | .error .Recoverable =>
          match qoi_op_diff input pixels state with
          | .ok (i, p, s) => .ok i p s
          | .error .Invalid => .tooFew
          | .error .Recoverable =>
            match qoi_op_luma input pixels state with
            | .ok (i, p, s) => .ok i p s
            | .error .Invalid => .tooFew
            | .error .Recoverable =>
              match qoi_op_run input pixels state with
              | .ok (i, p, s) => .ok i p s
              | .error .Invalid => .tooFew
              | .error .Recoverable => .invalidPixel

/-- The `while !bytes_left.is_empty()` loop of `parse_image_content`.
Every successful opcode consumes at least one byte, so fuel equal to
the input length (as supplied by `parse_image_content`) is always
enough; the fuel-exhaustion branch is unreachable there. -/
def decodeLoop : Nat → List Nat → List Nat → ParserState → Except DecoderError (List Nat)
  | _, [], pixels, _ => .ok pixels
  | 0, _ :: _, _, _ => .error .InvalidPixel
  | fuel + 1, b :: rest, pixels, state =>
    match decodeStep (b :: rest) pixels state with
    | .ok i p s => decodeLoop fuel i p s
    | .tooFew => .error .TooFewPixels
    | .invalidPixel => .error .InvalidPixel

/-- The `result_len` computation of `parse_image_content`: the products
are `u32` multiplications, which wrap modulo `2^32` before the value
is widened to `usize`. -/
def resultLen (header : Header) : Nat :=
  (match header.channels with
   | .Rgba => header.height * header.width * 4
   | .Rgb => header.height * header.width * 3) % 2 ^ 32

/-- The initial `ParserState` built at the top of `parse_image_content`. -/
def initState (header : Header) : ParserState :=
  { prev := ⟨0, 0, 0, 255⟩
    seen := fun _ => Pixel.zero
    is_alpha := match header.channels with
      | .Rgba => true
      | .Rgb => false }

/-- `fn parse_image_content` from `src/parser.rs`. -/
def parse_image_content (content_bytes : List Nat) (header : Header) :
    Except DecoderError (List Nat) :=
  match decodeLoop content_bytes.length content_bytes [] (initState header) with
  | .error e => .error e
  | .ok pixels =>
    if pixels.length < resultLen header then .error .TooFewPixels
    else if resultLen header < pixels.length then .error .TooManyPixels
    else .ok pixels

/-- `fn parse_image_header` from `src/parser.rs`.  The magic is the
ASCII bytes of the four characters q, o, i, f. -/
def parse_image_header (header_bytes : List Nat) : Except DecoderError Header :=
  match tag [113, 111, 105, 102] header_bytes with
  | .error _ => .error .InvalidMagic
  | .ok r0 =>
    match be_u32 r0 with
    | .error _ => .error .TooShortHeader
    | .ok (width, r1) =>
      match be_u32 r1 with
      | .error _ => .error .TooShortHeader
      | .ok (height, r2) =>
        match u8 r2 with
        | .error _ => .error .TooShortHeader
        | .ok (chByte, r3) =>
          match (if chByte = 3 then some Channels.Rgb
                 else if chByte = 4 then some Channels.Rgba
                 else none) with
          | none => .error .InvalidChannels
          | some channels =>
            match u8 r3 with
            | .error _ => .error .TooShortHeader
            | .ok (csByte, _) =>
              match (if csByte = 0 then some Colorspace.Srgb
                     else if csByte = 1 then some Colorspace.Linear
                     else none) with
              | none => .error .InvalidColorspace
              | some colorspace => .ok ⟨width, height, channels, colorspace⟩

/-- Modelled from the spec: one dispatch step with the spec's stated
priority order 1. RGB, 2. RGBA, 3. INDEX, 4. DIFF, 5. LUMA, 6. RUN,
7. END marker last.  This differs from `decodeStep` (the code),
which tries the END marker third, before INDEX. -/
def decodeStepSpecOrder (input pixels : List Nat) (state : ParserState) : StepResult :=
  match qoi_op_rgb input pixels state with
  | .ok (i, p, s) => .ok i p s
  | .error .Invalid => .tooFew
  | .error .Recoverable =>
    match qoi_op_rgba input pixels state with
    | .ok (i, p, s) => .ok i p s
    | .error .Invalid => .tooFew
    | .error .Recoverable =>
      match qoi_op_index input pixels state with
      | .ok (i, p, s) => .ok i p s
      | .error .Invalid => .tooFew
      | .error .Recoverable =>
        match qoi_op_diff input pixels state with
        | .ok (i, p, s) => .ok i p s
        | .error .Invalid => .tooFew
        | .error .Recoverable =>
          match qoi_op_luma input pixels state with
          | .ok (i, p, s) => .ok i p s
          | .error .Invalid => .tooFew
          | .error .Recoverable =>
            match qoi_op_run input pixels state with
            | .ok (i, p, s) => .ok i p s
            | .error .Invalid => .tooFew
            | .error .Recoverable =>
              match qoi_op_end input pixels state with
              | .ok (i, p, s) => .ok i p s
              | .error .Invalid => .tooFew
              | .error .Recoverable => .invalidPixel

/-- Modelled from the spec: the decode loop with the spec's priority
order (END marker tried last). -/
def decodeLoopSpecOrder : Nat → List Nat → List Nat → ParserState →
    Except DecoderError (List Nat)
  | _, [], pixels, _ => .ok pixels
  | 0, _ :: _, _, _ => .error .InvalidPixel
  | fuel + 1, b :: rest, pixels, state =>
    match decodeStepSpecOrder (b :: rest) pixels state with
    | .ok i p s => decodeLoopSpecOrder fuel i p s
    | .tooFew => .error .TooFewPixels
    | .invalidPixel => .error .InvalidPixel

/-- Modelled from the spec: `parse_image_content` with the spec's
opcode priority order, for comparison against the code's order. -/
def parse_image_content_spec_order (content_bytes : List Nat) (header : Header) :
    Except DecoderError (List Nat) :=
  match decodeLoopSpecOrder content_bytes.length content_bytes [] (initState header) with
  | .error e => .error e
  | .ok pixels =>
    if pixels.length < resultLen header then .error .TooFewPixels
    else if resultLen header < pixels.length then .error .TooManyPixels
    else .ok pixels

/-- Modelled from the spec: the hash `(r*3 + g*5 + b*7 + a*11) mod 64`
computed with 8-bit-wrapping multiplication and addition, each
intermediate reduced modulo 256. -/
def hashWrap8 (p : Pixel) : Nat :=
  ((((p.red * 3 % 256 + p.green * 5 % 256) % 256 + p.blue * 7 % 256) % 256
      + p.alpha * 11 % 256) % 256) % 64

/-- Modelled from the spec: the pixel a DIFF byte `b` produces from
`prev` — three 2-bit fields, each a signed delta with bias 2, added
to red, green, blue modulo 256; alpha unchanged. -/
def diffPixelSpec (prev : Pixel) (b : Nat) : Pixel :=
  { red := (((prev.red : Int) + (b / 16 % 4 : Nat) - 2) % 256).toNat
    green := (((prev.green : Int) + (b / 4 % 4 : Nat) - 2) % 256).toNat
    blue := (((prev.blue : Int) + (b % 4 : Nat) - 2) % 256).toNat
    alpha := prev.alpha }

/-- Modelled from the spec: the pixel a LUMA pair `b1 b2` produces from
`prev` — 6-bit green delta with bias 32; the second byte's nibbles
are red and blue deltas relative to the green delta with bias 8; all
applied modulo 256; alpha unchanged. -/
def lumaPixelSpec (prev : Pixel) (b1 b2 : Nat) : Pixel :=
  { red := (((prev.red : Int) + ((b1 % 64 : Nat) - 32 : Int) + ((b2 / 16 : Nat) - 8 : Int)) % 256).toNat
    green := (((prev.green : Int) + ((b1 % 64 : Nat) - 32 : Int)) % 256).toNat
    blue := (((prev.blue : Int) + ((b1 % 64 : Nat) - 32 : Int) + ((b2 % 16 : Nat) - 8 : Int)) % 256).toNat
    alpha := prev.alpha }

/-! ### Bit-level bridges for byte-sized values -/

set_option maxRecDepth 4096 in
theorem and192_shr6 : ∀ x < 256, (x &&& 192) >>> 6 = x / 64 := by decide

set_option maxRecDepth 4096 in
theorem and48_shr4 : ∀ x < 256, (x &&& 48) >>> 4 = x / 16 % 4 := by decide

set_option maxRecDepth 4096 in
theorem and12_shr2 : ∀ x < 256, (x &&& 12) >>> 2 = x / 4 % 4 := by decide

set_option maxRecDepth 4096 in
theorem and3_eq : ∀ x < 256, x &&& 3 = x % 4 := by decide

set_option maxRecDepth 4096 in
theorem and63_eq : ∀ x < 256, x &&& 63 = x % 64 := by decide

set_option maxRecDepth 4096 in
theorem and240_shr4 : ∀ x < 256, (x &&& 240) >>> 4 = x / 16 := by decide

set_option maxRecDepth 4096 in
theorem and15_eq : ∀ x < 256, x &&& 15 = x % 16 := by decide

/-! ### Characterisations of the opcode handlers -/

theorem tag_single_eq (x : Nat) (rest : List Nat) :
    tag [x] (x :: rest) = .ok rest := by
  simp [tag]

theorem tag_single_ne {b x : Nat} (h : b ≠ x) (rest : List Nat) :
    tag [x] (b :: rest) = .error .Recoverable := by
  simp [tag, h]

theorem qoi_op_rgb_ne {b : Nat} (h : b ≠ 254) (rest pixels : List Nat)
    (state : ParserState) :
    qoi_op_rgb (b :: rest) pixels state = .error .Recoverable := by
  simp [qoi_op_rgb, tag_single_ne h]

theorem qoi_op_rgb_ok (r g bl : Nat) (rest pixels : List Nat) (state : ParserState) :
    qoi_op_rgb (254 :: r :: g :: bl :: rest) pixels state =
      .ok (rest, push_pixel pixels ⟨r, g, bl, state.prev.alpha⟩ state.is_alpha,
           update_state ⟨r, g, bl, state.prev.alpha⟩ state) := rfl

theorem qoi_op_rgba_ne {b : Nat} (h : b ≠ 255) (rest pixels : List Nat)
    (state : ParserState) :
    qoi_op_rgba (b :: rest) pixels state = .error .Recoverable := by
  simp [qoi_op_rgba, tag_single_ne h]

theorem qoi_op_rgba_ok (r g bl a : Nat) (rest pixels : List Nat) (state : ParserState) :
    qoi_op_rgba (255 :: r :: g :: bl :: a :: rest) pixels state =
      .ok (rest, push_pixel pixels ⟨r, g, bl, a⟩ state.is_alpha,
           update_state ⟨r, g, bl, a⟩ state) := rfl

theorem qoi_op_end_short {input : List Nat} (h : input.length < 8)
    (pixels : List Nat) (state : ParserState) :
    qoi_op_end input pixels state = .error .Invalid := by
  simp [qoi_op_end, tag, h]

theorem tag_append (t rest : List Nat) : tag t (t ++ rest) = .ok rest := by
  unfold tag
  rw [if_neg (by simp), if_pos (List.take_left t rest), List.drop_left]

theorem qoi_op_end_marker (rest pixels : List Nat) (state : ParserState) :
    qoi_op_end ([0, 0, 0, 0, 0, 0, 0, 1] ++ rest) pixels state =
      .ok (rest, pixels, state) := by
  unfold qoi_op_end
  rw [tag_append]

theorem qoi_op_end_ne {input : List Nat} (h8 : 8 ≤ input.length)
    (hm : input.take 8 ≠ [0, 0, 0, 0, 0, 0, 0, 1])
    (pixels : List Nat) (state : ParserState) :
    qoi_op_end input pixels state = .error .Recoverable := by
  simp [qoi_op_end, tag, Nat.not_lt.mpr h8, hm]

theorem qoi_op_index_ne {b : Nat} (h : (b &&& 192) >>> 6 ≠ 0)
    (rest pixels : List Nat) (state : ParserState) :
    qoi_op_index (b :: rest) pixels state = .error .Recoverable := by
  simp [qoi_op_index, u8, h]

theorem qoi_op_index_ok {b : Nat} (h : (b &&& 192) >>> 6 = 0)
    (rest pixels : List Nat) (state : ParserState) :
    qoi_op_index (b :: rest) pixels state =
      .ok (rest,
           push_pixel pixels (state.seen ⟨b % 64, Nat.mod_lt _ (by decide)⟩) state.is_alpha,
           update_state (state.seen ⟨b % 64, Nat.mod_lt _ (by decide)⟩) state) := by
  simp [qoi_op_index, u8, h]

theorem qoi_op_diff_ne {b : Nat} (h : (b &&& 192) >>> 6 ≠ 1)
    (rest pixels : List Nat) (state : ParserState) :
    qoi_op_diff (b :: rest) pixels state = .error .Recoverable := by
  simp [qoi_op_diff, u8, h]

theorem qoi_op_diff_ok {b : Nat} (h : (b &&& 192) >>> 6 = 1)
    (rest pixels : List Nat) (state : ParserState) :
    qoi_op_diff (b :: rest) pixels state =
      .ok (rest,
           push_pixel pixels
             ⟨wadd state.prev.red (wsub ((b &&& 48) >>> 4) 2),
              wadd state.prev.green (wsub ((b &&& 12) >>> 2) 2),
              wadd state.prev.blue (wsub (b &&& 3) 2), state.prev.alpha⟩ state.is_alpha,
           update_state
             ⟨wadd state.prev.red (wsub ((b &&& 48) >>> 4) 2),
              wadd state.prev.green (wsub ((b &&& 12) >>> 2) 2),
              wadd state.prev.blue (wsub (b &&& 3) 2), state.prev.alpha⟩ state) := by
  simp [qoi_op_diff, u8, h]

theorem qoi_op_luma_ne {b : Nat} (h : (b &&& 192) >>> 6 ≠ 2)
    (rest pixels : List Nat) (state : ParserState) :
    qoi_op_luma (b :: rest) pixels state = .error .Recoverable := by
  simp [qoi_op_luma, u8, h]

theorem qoi_op_luma_one {b : Nat} (h : (b &&& 192) >>> 6 = 2)
    (pixels : List Nat) (state : ParserState) :
    qoi_op_luma [b] pixels state = .error .Invalid := by
  simp [qoi_op_luma, u8, h]

theorem qoi_op_luma_ok {b1 : Nat} (h : (b1 &&& 192) >>> 6 = 2)
    (b2 : Nat) (rest pixels : List Nat) (state : ParserState) :
    qoi_op_luma (b1 :: b2 :: rest) pixels state =
      .ok (rest,
           push_pixel pixels
             ⟨wadd state.prev.red (wadd (wsub (b1 &&& 63) 32) (wsub ((b2 &&& 240) >>> 4) 8)),
              wadd state.prev.green (wsub (b1 &&& 63) 32),
              wadd state.prev.blue (wadd (wsub (b1 &&& 63) 32) (wsub (b2 &&& 15) 8)),
              state.prev.alpha⟩ state.is_alpha,
           update_state
             ⟨wadd state.prev.red (wadd (wsub (b1 &&& 63) 32) (wsub ((b2 &&& 240) >>> 4) 8)),
              wadd state.prev.green (wsub (b1 &&& 63) 32),
              wadd state.prev.blue (wadd (wsub (b1 &&& 63) 32) (wsub (b2 &&& 15) 8)),
              state.prev.alpha⟩ state) := by
  simp [qoi_op_luma, u8, h]

theorem qoi_op_run_ne {b : Nat} (h : (b &&& 192) >>> 6 ≠ 3)
    (rest pixels : List Nat) (state : ParserState) :
    qoi_op_run (b :: rest) pixels state = .error .Recoverable := by
  simp [qoi_op_run, u8, h]

theorem qoi_op_run_ok {b : Nat} (h : (b &&& 192) >>> 6 = 3)
    (rest pixels : List Nat) (state : ParserState) :
    qoi_op_run (b :: rest) pixels state =
      .ok (rest, push_pixels pixels state.prev (wadd (b &&& 63) 1) state.is_alpha,
           update_state state.prev state) := by
  simp [qoi_op_run, u8, h]

theorem decodeStep_nil (pixels : List Nat) (state : ParserState) :
    decodeStep [] pixels state = .tooFew := rfl

theorem qoi_op_rgb_254_cases (rest pixels : List Nat) (state : ParserState) :
    qoi_op_rgb (254 :: rest) pixels state = .error .Invalid ∨
      ∃ i p s, qoi_op_rgb (254 :: rest) pixels state = .ok (i, p, s) := by
  match rest with
  | [] => exact .inl rfl
  | [_] => exact .inl rfl
  | [_, _] => exact .inl rfl
  | r :: g :: bl :: rest2 => exact .inr ⟨_, _, _, qoi_op_rgb_ok r g bl rest2 pixels state⟩

theorem qoi_op_rgba_255_cases (rest pixels : List Nat) (state : ParserState) :
    qoi_op_rgba (255 :: rest) pixels state = .error .Invalid ∨
      ∃ i p s, qoi_op_rgba (255 :: rest) pixels state = .ok (i, p, s) := by
  match rest with
  | [] => exact .inl rfl
  | [_] => exact .inl rfl
  | [_, _] => exact .inl rfl
  | [_, _, _] => exact .inl rfl
  | r :: g :: bl :: a :: rest2 =>
    exact .inr ⟨_, _, _, qoi_op_rgba_ok r g bl a rest2 pixels state⟩

theorem qoi_op_end_ok_take {input : List Nat} (h8 : ¬ input.length < 8)
    (hm : input.take 8 = [0, 0, 0, 0, 0, 0, 0, 1]) (pixels : List Nat)
    (state : ParserState) :
    qoi_op_end input pixels state = .ok (input.drop 8, pixels, state) := by
  simp [qoi_op_end, tag, h8, hm]

theorem decodeStep_marker (rest pixels : List Nat) (state : ParserState) :
    decodeStep ([0, 0, 0, 0, 0, 0, 0, 1] ++ rest) pixels state = .ok rest pixels state := by
  have hend := qoi_op_end_marker rest pixels state
  simp only [List.cons_append, List.nil_append] at hend ⊢
  unfold decodeStep
  rw [qoi_op_rgb_ne (by decide), qoi_op_rgba_ne (by decide), hend]

theorem decodeStep_short_fatal {b : Nat} (h254 : b ≠ 254) (h255 : b ≠ 255)
    {rest : List Nat} (hlen : rest.length < 7) (pixels : List Nat)
    (state : ParserState) :
    decodeStep (b :: rest) pixels state = .tooFew := by
  unfold decodeStep
  rw [qoi_op_rgb_ne h254, qoi_op_rgba_ne h255,
    qoi_op_end_short (by simp; omega) pixels state]

theorem qoi_op_rgb_inv {input pixels : List Nat} {state : ParserState}
    {i p : List Nat} {s : ParserState}
    (h : qoi_op_rgb input pixels state = .ok (i, p, s)) :
    ∃ r g bl, input = 254 :: r :: g :: bl :: i ∧
      p = push_pixel pixels ⟨r, g, bl, state.prev.alpha⟩ state.is_alpha ∧
      s = update_state ⟨r, g, bl, state.prev.alpha⟩ state := by
  match input with
  | [] => exact absurd h (by simp [qoi_op_rgb, tag])
  | b :: rest =>
    by_cases hb : b = 254
    · subst hb
      match rest with
      | [] => exact absurd h (by simp [qoi_op_rgb, tag, u8])
      | [_] => exact absurd h (by simp [qoi_op_rgb, tag, u8])
      | [_, _] => exact absurd h (by simp [qoi_op_rgb, tag, u8])
      | r :: g :: bl :: rest2 =>
        rw [qoi_op_rgb_ok] at h
        obtain ⟨h1, h2, h3⟩ : rest2 = i ∧
            push_pixel pixels ⟨r, g, bl, state.prev.alpha⟩ state.is_alpha = p ∧
            update_state ⟨r, g, bl, state.prev.alpha⟩ state = s := by
          have h' := Except.ok.inj h
          simpa [Prod.ext_iff] using h'
        exact ⟨r, g, bl, by rw [h1], h2.symm, h3.symm⟩
    · rw [qoi_op_rgb_ne hb] at h
      exact absurd h (by simp)

theorem qoi_op_rgba_inv {input pixels : List Nat} {state : ParserState}
    {i p : List Nat} {s : ParserState}
    (h : qoi_op_rgba input pixels state = .ok (i, p, s)) :
    ∃ r g bl a, input = 255 :: r :: g :: bl :: a :: i ∧
      p = push_pixel pixels ⟨r, g, bl, a⟩ state.is_alpha ∧
      s = update_state ⟨r, g, bl, a⟩ state := by
  match input with
  | [] => exact absurd h (by simp [qoi_op_rgba, tag])
  | b :: rest =>
    by_cases hb : b = 255
    · subst hb
      match rest with
      | [] => exact absurd h (by simp [qoi_op_rgba, tag, u8])
      | [_] => exact absurd h (by simp [qoi_op_rgba, tag, u8])
      | [_, _] => exact absurd h (by simp [qoi_op_rgba, tag, u8])
      | [_, _, _] => exact absurd h (by simp [qoi_op_rgba, tag, u8])
      | r :: g :: bl :: a :: rest2 =>
        rw [qoi_op_rgba_ok] at h
        obtain ⟨h1, h2, h3⟩ : rest2 = i ∧
            push_pixel pixels ⟨r, g, bl, a⟩ state.is_alpha = p ∧
            update_state ⟨r, g, bl, a⟩ state = s := by
          have h' := Except.ok.inj h
          simpa [Prod.ext_iff] using h'
        exact ⟨r, g, bl, a, by rw [h1], h2.symm, h3.symm⟩
    · rw [qoi_op_rgba_ne hb] at h
      exact absurd h (by simp)

theorem qoi_op_end_inv {input pixels : List Nat} {state : ParserState}
    {i p : List Nat} {s : ParserState}
    (h : qoi_op_end input pixels state = .ok (i, p, s)) :
    input = [0, 0, 0, 0, 0, 0, 0, 1] ++ i ∧ p = pixels ∧ s = state := by
  by_cases h8 : input.length < 8
  · rw [qoi_op_end_short h8] at h
    exact absurd h (by simp)
  · by_cases hm : input.take 8 = [0, 0, 0, 0, 0, 0, 0, 1]
    · rw [qoi_op_end_ok_take h8 hm] at h
      obtain ⟨h1, h2, h3⟩ : input.drop 8 = i ∧ pixels = p ∧ state = s := by
        have h' := Except.ok.inj h
        simpa [Prod.ext_iff] using h'
      refine ⟨?_, h2.symm, h3.symm⟩
      rw [← h1, ← hm, List.take_append_drop]
    · rw [qoi_op_end_ne (Nat.not_lt.mp h8) hm] at h
      exact absurd h (by simp)

theorem qoi_op_index_inv {input pixels : List Nat} {state : ParserState}
    {i p : List Nat} {s : ParserState}
    (h : qoi_op_index input pixels state = .ok (i, p, s)) :
    ∃ b, input = b :: i ∧ (b &&& 192) >>> 6 = 0 ∧
      p = push_pixel pixels (state.seen ⟨b % 64, Nat.mod_lt _ (by decide)⟩) state.is_alpha ∧
      s = update_state (state.seen ⟨b % 64, Nat.mod_lt _ (by decide)⟩) state := by
  match input with
  | [] => exact absurd h (by simp [qoi_op_index, u8])
  | b :: rest =>
    by_cases hb : (b &&& 192) >>> 6 = 0
    · rw [qoi_op_index_ok hb] at h
      obtain ⟨h1, h2, h3⟩ : rest = i ∧
          push_pixel pixels (state.seen ⟨b % 64, Nat.mod_lt _ (by decide)⟩) state.is_alpha = p ∧
          update_state (state.seen ⟨b % 64, Nat.mod_lt _ (by decide)⟩) state = s := by
        have h' := Except.ok.inj h
        simpa [Prod.ext_iff] using h'
      exact ⟨b, by rw [h1], hb, h2.symm, h3.symm⟩
    · rw [qoi_op_index_ne hb] at h
      exact absurd h (by simp)

theorem qoi_op_diff_inv {input pixels : List Nat} {state : ParserState}
    {i p : List Nat} {s : ParserState}
    (h : qoi_op_diff input pixels state = .ok (i, p, s)) :
    ∃ b, input = b :: i ∧ (b &&& 192) >>> 6 = 1 ∧
      p = push_pixel pixels
        ⟨wadd state.prev.red (wsub ((b &&& 48) >>> 4) 2),
         wadd state.prev.green (wsub ((b &&& 12) >>> 2) 2),
         wadd state.prev.blue (wsub (b &&& 3) 2), state.prev.alpha⟩ state.is_alpha ∧
      s = update_state
        ⟨wadd state.prev.red (wsub ((b &&& 48) >>> 4) 2),
         wadd state.prev.green (wsub ((b &&& 12) >>> 2) 2),
         wadd state.prev.blue (wsub (b &&& 3) 2), state.prev.alpha⟩ state := by
  match input with
  | [] => exact absurd h (by simp [qoi_op_diff, u8])
  | b :: rest =>
    by_cases hb : (b &&& 192) >>> 6 = 1
    · rw [qoi_op_diff_ok hb] at h
      obtain ⟨h1, h2, h3⟩ : rest = i ∧
          push_pixel pixels
            ⟨wadd state.prev.red (wsub ((b &&& 48) >>> 4) 2),
             wadd state.prev.green (wsub ((b &&& 12) >>> 2) 2),
             wadd state.prev.blue (wsub (b &&& 3) 2), state.prev.alpha⟩ state.is_alpha = p ∧
          update_state
            ⟨wadd state.prev.red (wsub ((b &&& 48) >>> 4) 2),
             wadd state.prev.green (wsub ((b &&& 12) >>> 2) 2),
             wadd state.prev.blue (wsub (b &&& 3) 2), state.prev.alpha⟩ state = s := by
        have h' := Except.ok.inj h
        simpa [Prod.ext_iff] using h'
      exact ⟨b, by rw [h1], hb, h2.symm, h3.symm⟩
    · rw [qoi_op_diff_ne hb] at h
      exact absurd h (by simp)

theorem qoi_op_luma_inv {input pixels : List Nat} {state : ParserState}
    {i p : List Nat} {s : ParserState}
    (h : qoi_op_luma input pixels state = .ok (i, p, s)) :
    ∃ b1 b2, input = b1 :: b2 :: i ∧ (b1 &&& 192) >>> 6 = 2 ∧
      p = push_pixel pixels
        ⟨wadd state.prev.red (wadd (wsub (b1 &&& 63) 32) (wsub ((b2 &&& 240) >>> 4) 8)),
         wadd state.prev.green (wsub (b1 &&& 63) 32),
         wadd state.prev.blue (wadd (wsub (b1 &&& 63) 32) (wsub (b2 &&& 15) 8)),
         state.prev.alpha⟩ state.is_alpha ∧
      s = update_state
        ⟨wadd state.prev.red (wadd (wsub (b1 &&& 63) 32) (wsub ((b2 &&& 240) >>> 4) 8)),
         wadd state.prev.green (wsub (b1 &&& 63) 32),
         wadd state.prev.blue (wadd (wsub (b1 &&& 63) 32) (wsub (b2 &&& 15) 8)),
         state.prev.alpha⟩ state := by
  match input with
  | [] => exact absurd h (by simp [qoi_op_luma, u8])
  | b1 :: rest =>
    by_cases hb : (b1 &&& 192) >>> 6 = 2
    · match rest with
      | [] => exact absurd (qoi_op_luma_one hb pixels state ▸ h) (by simp)
      | b2 :: rest2 =>
        rw [qoi_op_luma_ok hb] at h
        obtain ⟨h1, h2, h3⟩ : rest2 = i ∧
            push_pixel pixels
              ⟨wadd state.prev.red (wadd (wsub (b1 &&& 63) 32) (wsub ((b2 &&& 240) >>> 4) 8)),
               wadd state.prev.green (wsub (b1 &&& 63) 32),
               wadd state.prev.blue (wadd (wsub (b1 &&& 63) 32) (wsub (b2 &&& 15) 8)),
               state.prev.alpha⟩ state.is_alpha = p ∧
            update_state
              ⟨wadd state.prev.red (wadd (wsub (b1 &&& 63) 32) (wsub ((b2 &&& 240) >>> 4) 8)),
               wadd state.prev.green (wsub (b1 &&& 63) 32),
               wadd state.prev.blue (wadd (wsub (b1 &&& 63) 32) (wsub (b2 &&& 15) 8)),
               state.prev.alpha⟩ state = s := by
          have h' := Except.ok.inj h
          simpa [Prod.ext_iff] using h'
        exact ⟨b1, b2, by rw [h1], hb, h2.symm, h3.symm⟩
    · rw [qoi_op_luma_ne hb] at h
      exact absurd h (by simp)

theorem qoi_op_run_inv {input pixels : List Nat} {state : ParserState}
    {i p : List Nat} {s : ParserState}
    (h : qoi_op_run input pixels state = .ok (i, p, s)) :
    ∃ b, input = b :: i ∧ (b &&& 192) >>> 6 = 3 ∧
      p = push_pixels pixels state.prev (wadd (b &&& 63) 1) state.is_alpha ∧
      s = update_state state.prev state := by
  match input with
  | [] => exact absurd h (by simp [qoi_op_run, u8])
  | b :: rest =>
    by_cases hb : (b &&& 192) >>> 6 = 3
    · rw [qoi_op_run_ok hb] at h
      obtain ⟨h1, h2, h3⟩ : rest = i ∧
          push_pixels pixels state.prev (wadd (b &&& 63) 1) state.is_alpha = p ∧
          update_state state.prev state = s := by
        have h' := Except.ok.inj h
        simpa [Prod.ext_iff] using h'
      exact ⟨b, by rw [h1], hb, h2.symm, h3.symm⟩
    · rw [qoi_op_run_ne hb] at h
      exact absurd h (by simp)

theorem decodeStep_ok_inv {input pixels : List Nat} {state : ParserState}
    {i p : List Nat} {s : ParserState}
    (h : decodeStep input pixels state = .ok i p s) :
    ∃ k, 1 ≤ k ∧ i = input.drop k := by
  unfold decodeStep at h
  cases h1 : qoi_op_rgb input pixels state with
  | ok o =>
    obtain ⟨i0, p0, s0⟩ := o
    rw [h1] at h
    obtain ⟨r, g, bl, hin, -, -⟩ := qoi_op_rgb_inv h1
    have hall : i0 = i ∧ p0 = p ∧ s0 = s := by simpa using h
    have hi := hall.1
    exact ⟨4, by omega, by rw [hin, ← hi]; rfl⟩
  | error e1 =>
    rw [h1] at h
    cases e1 with
    | Invalid => exact absurd h (by simp)
    | Recoverable =>
      cases h2 : qoi_op_rgba input pixels state with
      | ok o =>
        obtain ⟨i0, p0, s0⟩ := o
        rw [h2] at h
        obtain ⟨r, g, bl, a, hin, -, -⟩ := qoi_op_rgba_inv h2
        have hall : i0 = i ∧ p0 = p ∧ s0 = s := by simpa using h
        have hi := hall.1
        exact ⟨5, by omega, by rw [hin, ← hi]; rfl⟩
      | error e2 =>
        rw [h2] at h
        cases e2 with
        | Invalid => exact absurd h (by simp)
        | Recoverable =>
          cases h3 : qoi_op_end input pixels state with
          | ok o =>
            obtain ⟨i0, p0, s0⟩ := o
            rw [h3] at h
            obtain ⟨hin, -, -⟩ := qoi_op_end_inv h3
            have hall : i0 = i ∧ p0 = p ∧ s0 = s := by simpa using h
            have hi := hall.1
            refine ⟨8, by omega, ?_⟩
            rw [hin, ← hi]
            rfl
          | error e3 =>
            rw [h3] at h
            cases e3 with
            | Invalid => exact absurd h (by simp)
            | Recoverable =>
              cases h4 : qoi_op_index input pixels state with
              | ok o =>
                obtain ⟨i0, p0, s0⟩ := o
                rw [h4] at h
                obtain ⟨b, hin, -, -, -⟩ := qoi_op_index_inv h4
                have hall : i0 = i ∧ p0 = p ∧ s0 = s := by simpa using h
                have hi := hall.1
                exact ⟨1, by omega, by rw [hin, ← hi]; rfl⟩
              | error e4 =>
                rw [h4] at h
                cases e4 with
                | Invalid => exact absurd h (by simp)
                | Recoverable =>
                  cases h5 : qoi_op_diff input pixels state with
                  | ok o =>
                    obtain ⟨i0, p0, s0⟩ := o
                    rw [h5] at h
                    obtain ⟨b, hin, -, -, -⟩ := qoi_op_diff_inv h5
                    have hall : i0 = i ∧ p0 = p ∧ s0 = s := by simpa using h
                    have hi := hall.1
                    exact ⟨1, by omega, by rw [hin, ← hi]; rfl⟩
                  | error e5 =>
                    rw [h5] at h
                    cases e5 with
                    | Invalid => exact absurd h (by simp)
                    | Recoverable =>
                      cases h6 : qoi_op_luma input pixels state with
                      | ok o =>
                        obtain ⟨i0, p0, s0⟩ := o
                        rw [h6] at h
                        obtain ⟨b1, b2, hin, -, -, -⟩ := qoi_op_luma_inv h6
                        have hall : i0 = i ∧ p0 = p ∧ s0 = s := by simpa using h
                        have hi := hall.1
                        exact ⟨2, by omega, by rw [hin, ← hi]; rfl⟩
                      | error e6 =>
                        rw [h6] at h
                        cases e6 with
                        | Invalid => exact absurd h (by simp)
                        | Recoverable =>
                          cases h7 : qoi_op_run input pixels state with
                          | ok o =>
                            obtain ⟨i0, p0, s0⟩ := o
                            rw [h7] at h
                            obtain ⟨b, hin, -, -, -⟩ := qoi_op_run_inv h7
                            have hall : i0 = i ∧ p0 = p ∧ s0 = s := by simpa using h
                            have hi := hall.1
                            exact ⟨1, by omega, by rw [hin, ← hi]; rfl⟩
                          | error e7 =>
                            rw [h7] at h
                            cases e7 with
                            | Invalid => exact absurd h (by simp)
                            | Recoverable => exact absurd h (by simp)

theorem decodeStep_not_invalidPixel {b : Nat} (hb : b < 256) (rest pixels : List Nat)
    (state : ParserState) :
    decodeStep (b :: rest) pixels state ≠ .invalidPixel := by
  by_cases h254 : b = 254
  · subst h254
    unfold decodeStep
    rcases qoi_op_rgb_254_cases rest pixels state with h | ⟨i, p, s, h⟩ <;> rw [h] <;> simp
  · by_cases h255 : b = 255
    · subst h255
      unfold decodeStep
      rw [qoi_op_rgb_ne (by decide)]
      rcases qoi_op_rgba_255_cases rest pixels state with h | ⟨i, p, s, h⟩ <;> rw [h] <;> simp
    · unfold decodeStep
      rw [qoi_op_rgb_ne h254, qoi_op_rgba_ne h255]
      by_cases hlen : (b :: rest).length < 8
      · rw [qoi_op_end_short hlen]
        simp
      · by_cases hm : (b :: rest).take 8 = [0, 0, 0, 0, 0, 0, 0, 1]
        · rw [qoi_op_end_ok_take hlen hm]
          simp
        · rw [qoi_op_end_ne (Nat.not_lt.mp hlen) hm]
          have ht : (b &&& 192) >>> 6 = b / 64 := and192_shr6 b hb
          have h4 : b / 64 = 0 ∨ b / 64 = 1 ∨ b / 64 = 2 ∨ b / 64 = 3 := by omega
          rcases h4 with h0 | h1 | h2 | h3
          · rw [qoi_op_index_ok (by rw [ht, h0])]
            simp
          · rw [qoi_op_index_ne (by rw [ht]; omega), qoi_op_diff_ok (by rw [ht, h1])]
            simp
          · rcases rest with _ | ⟨b2, rest2⟩
            · simp at hlen
            · rw [qoi_op_index_ne (by rw [ht]; omega), qoi_op_diff_ne (by rw [ht]; omega),
                qoi_op_luma_ok (by rw [ht, h2])]
              simp
          · rw [qoi_op_index_ne (by rw [ht]; omega), qoi_op_diff_ne (by rw [ht]; omega),
              qoi_op_luma_ne (by rw [ht]; omega), qoi_op_run_ok (by rw [ht, h3])]
            simp

theorem decodeLoop_error_eq : ∀ (fuel : Nat) {input pixels : List Nat}
    {state : ParserState}, input.length ≤ fuel → (∀ x ∈ input, x < 256) →
    ∀ {e}, decodeLoop fuel input pixels state = .error e → e = .TooFewPixels := by
  intro fuel
  induction fuel with
  | zero =>
    intro input pixels state hf hb e h
    cases input with
    | nil => simp [decodeLoop] at h
    | cons b rest => simp at hf
  | succ fuel ih =>
    intro input pixels state hf hb e h
    cases input with
    | nil => simp [decodeLoop] at h
    | cons b rest =>
      cases hs : decodeStep (b :: rest) pixels state with
      | ok i p s =>
        simp only [decodeLoop, hs] at h
        obtain ⟨k, hk, hdrop⟩ := decodeStep_ok_inv hs
        have hlen : i.length ≤ fuel := by
          have h1 : i.length = (b :: rest).length - k := by
            rw [hdrop]; exact List.length_drop k (b :: rest)
          simp at hf h1
          omega
        have hbnd : ∀ x ∈ i, x < 256 := by
          intro x hx
          exact hb x (List.drop_subset k (b :: rest) (hdrop ▸ hx))
        exact ih hlen hbnd h
      | tooFew =>
        simp only [decodeLoop, hs] at h
        exact (Except.error.inj h).symm
      | invalidPixel =>
        exact absurd hs (decodeStep_not_invalidPixel (hb b (by simp)) rest pixels state)

/-! ### Claim theorems -/

/-- C1 (counterexample): decoding the 1×1 RGB image whose whole content
payload is the single RUN byte `0b11000000` does NOT succeed: the code
tries the 8-byte END marker before RUN, and with fewer than 8 bytes
left that attempt fails fatally, so the decode returns `TooFewPixels`
instead of the single pixel `(0,0,0)`. -/
theorem run_without_marker_fails :
    parse_image_content [192] ⟨1, 1, .Rgb, .Srgb⟩ = .error .TooFewPixels ∧
    parse_image_content [192] ⟨1, 1, .Rgb, .Srgb⟩ ≠ .ok [0, 0, 0] := by
  constructor
  · rfl
  · decide

/-- C1 (amended): with the 8-byte end marker appended, the 1×1 RGB image
with RUN byte `0b11000000` decodes to the single pixel `(0,0,0)`; the
bare single-byte payload fails with `TooFewPixels`, because the END
parser is tried before RUN and fails fatally when fewer than 8 bytes
remain — so the end marker is effectively required here. -/
theorem run_with_marker_decodes :
    parse_image_content [192, 0, 0, 0, 0, 0, 0, 0, 1] ⟨1, 1, .Rgb, .Srgb⟩ = .ok [0, 0, 0] ∧
    parse_image_content [192] ⟨1, 1, .Rgb, .Srgb⟩ = .error .TooFewPixels := by
  constructor
  · rfl
  · rfl

/-- C3 (counterexample): the code consumes an 8-byte end-marker sequence
as END (tried third) even though its first byte has top 2 bits `00`;
under the spec's order (INDEX before END) the same payload decodes to
8 pixels from the cache.  For an 8×1 RGB image the code returns
`TooFewPixels` while the spec-order decoder succeeds. -/
theorem end_marker_consumed_before_index :
    parse_image_content [0, 0, 0, 0, 0, 0, 0, 1] ⟨8, 1, .Rgb, .Srgb⟩ =
      .error .TooFewPixels ∧
    parse_image_content_spec_order [0, 0, 0, 0, 0, 0, 0, 1] ⟨8, 1, .Rgb, .Srgb⟩ =
      .ok (List.replicate 24 0) := by
  constructor
  · rfl
  · decide

/-- C3 (amended): the decoder attempts opcodes in the fixed order RGB,
RGBA, END marker, INDEX, DIFF, LUMA, RUN.  Hence: (1) input starting
with the 8-byte end marker is consumed as END (no pixel), even though
the marker's first byte has top 2 bits `00`; (2) when fewer than 8
bytes remain and neither full-byte tag matches, the END attempt fails
fatally and the step aborts (`TooFewPixels`) before INDEX/DIFF/LUMA/RUN
are tried; (3) INDEX fires for a top-bits-`00` byte only when at least
8 bytes remain and they are not the end marker. -/
theorem decodeStep_order_c3 : ∀ (pixels : List Nat) (state : ParserState)
    (rest : List Nat) (b : Nat) (rest2 : List Nat),
    (decodeStep ([0, 0, 0, 0, 0, 0, 0, 1] ++ rest) pixels state = .ok rest pixels state) ∧
    (b ≠ 254 → b ≠ 255 → rest2.length < 7 →
      decodeStep (b :: rest2) pixels state = .tooFew) ∧
    (b < 64 → 7 ≤ rest2.length → (b :: rest2).take 8 ≠ [0, 0, 0, 0, 0, 0, 0, 1] →
      decodeStep (b :: rest2) pixels state =
        .ok rest2
          (push_pixel pixels (state.seen ⟨b % 64, Nat.mod_lt _ (by decide)⟩) state.is_alpha)
          (update_state (state.seen ⟨b % 64, Nat.mod_lt _ (by decide)⟩) state)) := by
  intro pixels state rest b rest2
  refine ⟨decodeStep_marker rest pixels state, ?_, ?_⟩
  · intro h254 h255 hlen
    exact decodeStep_short_fatal h254 h255 hlen pixels state
  · intro hb hlen hm
    have hb256 : b < 256 := by omega
    have ht : (b &&& 192) >>> 6 = 0 := by rw [and192_shr6 b hb256]; omega
    unfold decodeStep
    rw [qoi_op_rgb_ne (by omega), qoi_op_rgba_ne (by omega),
      qoi_op_end_ne (by simp; omega) hm, qoi_op_index_ok ht]

/-- C3 (witness): concrete instances of the three parts of
`decodeStep_order_c3`. -/
theorem decodeStep_order_c3_witness :
    (decodeStep ([0, 0, 0, 0, 0, 0, 0, 1] ++ []) [] (initState ⟨1, 1, .Rgb, .Srgb⟩) =
      .ok [] [] (initState ⟨1, 1, .Rgb, .Srgb⟩)) ∧
    (decodeStep (192 :: []) [] (initState ⟨1, 1, .Rgb, .Srgb⟩) = .tooFew) ∧
    (decodeStep (5 :: [0, 0, 0, 0, 0, 0, 0]) [] (initState ⟨1, 1, .Rgb, .Srgb⟩) =
      .ok [0, 0, 0, 0, 0, 0, 0]
        (push_pixel []
          ((initState ⟨1, 1, .Rgb, .Srgb⟩).seen ⟨5 % 64, Nat.mod_lt _ (by decide)⟩)
          (initState ⟨1, 1, .Rgb, .Srgb⟩).is_alpha)
        (update_state
          ((initState ⟨1, 1, .Rgb, .Srgb⟩).seen ⟨5 % 64, Nat.mod_lt _ (by decide)⟩)
          (initState ⟨1, 1, .Rgb, .Srgb⟩))) :=
  ⟨(decodeStep_order_c3 [] (initState ⟨1, 1, .Rgb, .Srgb⟩) [] 192 []).1,
   (decodeStep_order_c3 [] (initState ⟨1, 1, .Rgb, .Srgb⟩) [] 192 []).2.1
     (by decide) (by decide) (by decide),
   (decodeStep_order_c3 [] (initState ⟨1, 1, .Rgb, .Srgb⟩) [] 5 [0, 0, 0, 0, 0, 0, 0]).2.2
     (by decide) (by decide) (by decide)⟩

/-- C4: the cache slot the decoder uses — `hash_pixel`, the index both
`update_state` writes to and an INDEX opcode later reads — is
extensionally equal to the spec's 8-bit-wrapping reference hash
`(r*3 + g*5 + b*7 + a*11) mod 64`, and `update_state` stores the pixel
at exactly that slot. -/
theorem hash_pixel_c4 : ∀ (p : Pixel) (s : ParserState),
    hash_pixel p = hashWrap8 p ∧ (update_state p s).seen (hashFin p) = p := by
  intro p s
  constructor
  · unfold hash_pixel hashWrap8
    omega
  · simp [update_state]

/-- C7: a RUN opcode byte (top 2 bits `11`) makes `qoi_op_run` emit
exactly `(low 6 bits) + 1` repetitions of the previous pixel, each
unchanged, and the state is updated with that same previous pixel. -/
theorem qoi_op_run_c7 : ∀ (b : Nat) (rest pixels : List Nat) (state : ParserState),
    b < 256 → (b &&& 192) >>> 6 = 3 →
    qoi_op_run (b :: rest) pixels state =
      .ok (rest,
        pixels ++ (List.replicate (b % 64 + 1) (pixelBytes state.prev state.is_alpha)).flatten,
        update_state state.prev state) := by
  intro b rest pixels state hb h3
  rw [qoi_op_run_ok h3]
  unfold push_pixels
  have hr : wadd (b &&& 63) 1 = b % 64 + 1 := by
    rw [and63_eq b hb]
    unfold wadd
    omega
  rw [hr]

/-- C7 (witness): the RUN byte `0b11000000` (low 6 bits 0) produces
exactly one pixel — the `+1` is present. -/
theorem qoi_op_run_c7_witness :
    (qoi_op_run [192] [] (initState ⟨1, 1, .Rgb, .Srgb⟩) =
      .ok ([],
        [] ++ (List.replicate (192 % 64 + 1)
          (pixelBytes (initState ⟨1, 1, .Rgb, .Srgb⟩).prev
            (initState ⟨1, 1, .Rgb, .Srgb⟩).is_alpha)).flatten,
        update_state (initState ⟨1, 1, .Rgb, .Srgb⟩).prev (initState ⟨1, 1, .Rgb, .Srgb⟩))) ∧
    192 % 64 + 1 = 1 :=
  ⟨qoi_op_run_c7 192 [] [] (initState ⟨1, 1, .Rgb, .Srgb⟩) (by decide) (by decide),
   by decide⟩

/-- C10: `result_len` is computed in wrapping unsigned 32-bit
arithmetic, so for a header whose true byte count `2^30 * 4 * 4 = 2^34`
exceeds `2^32 - 1`, the final pixel-count check compares against the
wrapped value `0`, and an empty payload (producing the wrapped count)
is accepted even though the true product is not met. -/
theorem resultLen_u32_wraparound :
    2 ^ 32 - 1 < 1073741824 * 4 * 4 ∧
    resultLen ⟨1073741824, 4, .Rgba, .Srgb⟩ = 0 ∧
    parse_image_content [] ⟨1073741824, 4, .Rgba, .Srgb⟩ = .ok [] ∧
    ([] : List Nat).length ≠ 1073741824 * 4 * 4 := by
  refine ⟨by norm_num, by decide, rfl, by norm_num⟩

theorem getLast_replicate_of_ne {α : Type} (n : Nat) (a : α) (h : n ≠ 0) :
    (List.replicate n a).getLast? = some a := by
  match n with
  | 0 => contradiction
  | n + 1 =>
    rw [List.replicate_succ', List.getLast?_concat]

theorem single_producer_shape (q : Pixel) (pixels : List Nat) (state : ParserState) :
    push_pixel pixels q state.is_alpha =
      pixels ++ (([q] : List Pixel).map fun r => pixelBytes r state.is_alpha).flatten ∧
    ([q] : List Pixel).getLast? = some (update_state q state).prev ∧
    (update_state q state).seen (hashFin (update_state q state).prev) =
      (update_state q state).prev := by
  refine ⟨by simp [push_pixel], rfl, ?_⟩
  simp [update_state]

/-- C5 (counterexample): the END-marker opcode is successfully decoded
but leaves the state unchanged, so directly after it (from the initial
state, before any pixel) the claimed invariant
`cache[hash(previous)] == previous` does not hold: the initial cache is
all `{0,0,0,0}` while `previous` is `{0,0,0,255}`. -/
theorem end_opcode_breaks_invariant :
    qoi_op_end [0, 0, 0, 0, 0, 0, 0, 1] [] (initState ⟨1, 1, .Rgb, .Srgb⟩) =
      .ok ([], [], initState ⟨1, 1, .Rgb, .Srgb⟩) ∧
    (initState ⟨1, 1, .Rgb, .Srgb⟩).seen
        (hashFin (initState ⟨1, 1, .Rgb, .Srgb⟩).prev) ≠
      (initState ⟨1, 1, .Rgb, .Srgb⟩).prev := by
  constructor
  · rfl
  · decide

/-- C5 (amended): starting from `previous = {0,0,0,255}` and a cache of
64 zero pixels, after every successfully decoded pixel-producing opcode
(RGB, RGBA, INDEX, DIFF, LUMA, RUN) the state satisfies: `previous`
equals the most recently produced pixel and `cache[hash(previous)] ==
previous`; for RUN every repeated pixel counts as produced and equals
the previous pixel.  The END-marker opcode produces no pixel and leaves
the state (and hence a possibly not-yet-established invariant)
unchanged. -/
theorem decode_state_invariant_c5 :
    (∀ header, (initState header).prev = ⟨0, 0, 0, 255⟩ ∧
      ∀ j, (initState header).seen j = ⟨0, 0, 0, 0⟩) ∧
    (∀ input pixels state i p s, qoi_op_rgb input pixels state = .ok (i, p, s) →
      ∃ ps : List Pixel, ps ≠ [] ∧
        p = pixels ++ (ps.map fun r => pixelBytes r state.is_alpha).flatten ∧
        ps.getLast? = some s.prev ∧ s.seen (hashFin s.prev) = s.prev) ∧
    (∀ input pixels state i p s, qoi_op_rgba input pixels state = .ok (i, p, s) →
      ∃ ps : List Pixel, ps ≠ [] ∧
        p = pixels ++ (ps.map fun r => pixelBytes r state.is_alpha).flatten ∧
        ps.getLast? = some s.prev ∧ s.seen (hashFin s.prev) = s.prev) ∧
    (∀ input pixels state i p s, qoi_op_index input pixels state = .ok (i, p, s) →
      ∃ ps : List Pixel, ps ≠ [] ∧
        p = pixels ++ (ps.map fun r => pixelBytes r state.is_alpha).flatten ∧
        ps.getLast? = some s.prev ∧ s.seen (hashFin s.prev) = s.prev) ∧
    (∀ input pixels state i p s, qoi_op_diff input pixels state = .ok (i, p, s) →
      ∃ ps : List Pixel, ps ≠ [] ∧
        p = pixels ++ (ps.map fun r => pixelBytes r state.is_alpha).flatten ∧
        ps.getLast? = some s.prev ∧ s.seen (hashFin s.prev) = s.prev) ∧
    (∀ input pixels state i p s, qoi_op_luma input pixels state = .ok (i, p, s) →
      ∃ ps : List Pixel, ps ≠ [] ∧
        p = pixels ++ (ps.map fun r => pixelBytes r state.is_alpha).flatten ∧
        ps.getLast? = some s.prev ∧ s.seen (hashFin s.prev) = s.prev) ∧
    (∀ input pixels state i p s, qoi_op_run input pixels state = .ok (i, p, s) →
      ∃ ps : List Pixel, ps ≠ [] ∧ (∀ q ∈ ps, q = state.prev) ∧
        p = pixels ++ (ps.map fun r => pixelBytes r state.is_alpha).flatten ∧
        ps.getLast? = some s.prev ∧ s.seen (hashFin s.prev) = s.prev) ∧
    (∀ input pixels state i p s, qoi_op_end input pixels state = .ok (i, p, s) →
      p = pixels ∧ s = state) := by
  refine ⟨?_, ?_, ?_, ?_, ?_, ?_, ?_, ?_⟩
  · intro header
    exact ⟨rfl, fun j => rfl⟩
  · intro input pixels state i p s h
    obtain ⟨r, g, bl, hin, hp, hs⟩ := qoi_op_rgb_inv h
    subst hp hs
    obtain ⟨h1, h2, h3⟩ := single_producer_shape ⟨r, g, bl, state.prev.alpha⟩ pixels state
    exact ⟨[⟨r, g, bl, state.prev.alpha⟩], by simp, h1, h2, h3⟩
  · intro input pixels state i p s h
    obtain ⟨r, g, bl, a, hin, hp, hs⟩ := qoi_op_rgba_inv h
    subst hp hs
    obtain ⟨h1, h2, h3⟩ := single_producer_shape ⟨r, g, bl, a⟩ pixels state
    exact ⟨[⟨r, g, bl, a⟩], by simp, h1, h2, h3⟩
  · intro input pixels state i p s h
    obtain ⟨b, hin, hb, hp, hs⟩ := qoi_op_index_inv h
    subst hp hs
    obtain ⟨h1, h2, h3⟩ :=
      single_producer_shape (state.seen ⟨b % 64, Nat.mod_lt _ (by decide)⟩) pixels state
    exact ⟨[state.seen ⟨b % 64, Nat.mod_lt _ (by decide)⟩], by simp, h1, h2, h3⟩
  · intro input pixels state i p s h
    obtain ⟨b, hin, hb, hp, hs⟩ := qoi_op_diff_inv h
    subst hp hs
    obtain ⟨h1, h2, h3⟩ := single_producer_shape
      ⟨wadd state.prev.red (wsub ((b &&& 48) >>> 4) 2),
       wadd state.prev.green (wsub ((b &&& 12) >>> 2) 2),
       wadd state.prev.blue (wsub (b &&& 3) 2), state.prev.alpha⟩ pixels state
    exact ⟨_, by simp, h1, h2, h3⟩
  · intro input pixels state i p s h
    obtain ⟨b1, b2, hin, hb, hp, hs⟩ := qoi_op_luma_inv h
    subst hp hs
    obtain ⟨h1, h2, h3⟩ := single_producer_shape
      ⟨wadd state.prev.red (wadd (wsub (b1 &&& 63) 32) (wsub ((b2 &&& 240) >>> 4) 8)),
       wadd state.prev.green (wsub (b1 &&& 63) 32),
       wadd state.prev.blue (wadd (wsub (b1 &&& 63) 32) (wsub (b2 &&& 15) 8)),
       state.prev.alpha⟩ pixels state
    exact ⟨_, by simp, h1, h2, h3⟩
  · intro input pixels state i p s h
    obtain ⟨b, hin, hb, hp, hs⟩ := qoi_op_run_inv h
    subst hp hs
    refine ⟨List.replicate (wadd (b &&& 63) 1) state.prev, ?_, ?_, ?_, ?_, ?_⟩
    · have : wadd (b &&& 63) 1 ≠ 0 := by
        unfold wadd
        have h63 : b &&& 63 ≤ 63 := Nat.and_le_right
        omega
      simp [this]
    · intro q hq
      exact List.eq_of_mem_replicate hq
    · unfold push_pixels
      rw [List.map_replicate]
    · rw [getLast_replicate_of_ne]
      · rfl
      · unfold wadd
        have h63 : b &&& 63 ≤ 63 := Nat.and_le_right
        omega
    · simp [update_state]
  · intro input pixels state i p s h
    obtain ⟨hin, hp, hs⟩ := qoi_op_end_inv h
    exact ⟨hp, hs⟩

/-- C5 (witness): the RUN conjunct of `decode_state_invariant_c5`
instantiated at the RUN byte `0b11000000` from the initial state. -/
theorem decode_state_invariant_c5_witness :
    ∃ ps : List Pixel, ps ≠ [] ∧
      (∀ q ∈ ps, q = (initState ⟨1, 1, .Rgb, .Srgb⟩).prev) ∧
      push_pixels [] (initState ⟨1, 1, .Rgb, .Srgb⟩).prev (wadd (192 &&& 63) 1)
          (initState ⟨1, 1, .Rgb, .Srgb⟩).is_alpha =
        [] ++ (ps.map fun r => pixelBytes r (initState ⟨1, 1, .Rgb, .Srgb⟩).is_alpha).flatten ∧
      ps.getLast? = some (update_state (initState ⟨1, 1, .Rgb, .Srgb⟩).prev
          (initState ⟨1, 1, .Rgb, .Srgb⟩)).prev ∧
      (update_state (initState ⟨1, 1, .Rgb, .Srgb⟩).prev (initState ⟨1, 1, .Rgb, .Srgb⟩)).seen
          (hashFin (update_state (initState ⟨1, 1, .Rgb, .Srgb⟩).prev
            (initState ⟨1, 1, .Rgb, .Srgb⟩)).prev) =
        (update_state (initState ⟨1, 1, .Rgb, .Srgb⟩).prev (initState ⟨1, 1, .Rgb, .Srgb⟩)).prev :=
  decode_state_invariant_c5.2.2.2.2.2.2.1 [192] [] (initState ⟨1, 1, .Rgb, .Srgb⟩) []
    (push_pixels [] (initState ⟨1, 1, .Rgb, .Srgb⟩).prev (wadd (192 &&& 63) 1)
      (initState ⟨1, 1, .Rgb, .Srgb⟩).is_alpha)
    (update_state (initState ⟨1, 1, .Rgb, .Srgb⟩).prev (initState ⟨1, 1, .Rgb, .Srgb⟩))
    rfl

theorem diff_channel_eq (x d : Nat) (hx : x < 256) (hd : d < 4) :
    wadd x (wsub d 2) = (((x : Int) + (d : Int) - 2) % 256).toNat := by
  unfold wadd wsub
  omega

theorem luma_green_eq (x g : Nat) (hx : x < 256) (hg : g < 64) :
    wadd x (wsub g 32) = (((x : Int) + ((g : Int) - 32)) % 256).toNat := by
  unfold wadd wsub
  omega

theorem luma_rb_eq (x g n : Nat) (hx : x < 256) (hg : g < 64) (hn : n < 16) :
    wadd x (wadd (wsub g 32) (wsub n 8)) =
      (((x : Int) + ((g : Int) - 32) + ((n : Int) - 8)) % 256).toNat := by
  unfold wadd wsub
  omega

/-- C6: for byte-sized inputs and a byte-sized previous pixel, a DIFF
byte decodes as three 2-bit fields with bias 2 added to red, green,
blue modulo 256, and a LUMA pair decodes as a 6-bit green delta with
bias 32 plus nibble deltas with bias 8 relative to it, also modulo
256; alpha is unchanged in both (visible in `diffPixelSpec` /
`lumaPixelSpec`), and the arithmetic wraps rather than saturates. -/
theorem qoi_op_diff_luma_c6 :
    ∀ (bd b1 b2 : Nat) (restD restL pixelsD pixelsL : List Nat) (sD sL : ParserState),
    bd < 256 → (bd &&& 192) >>> 6 = 1 →
    sD.prev.red < 256 → sD.prev.green < 256 → sD.prev.blue < 256 →
    b1 < 256 → b2 < 256 → (b1 &&& 192) >>> 6 = 2 →
    sL.prev.red < 256 → sL.prev.green < 256 → sL.prev.blue < 256 →
    (qoi_op_diff (bd :: restD) pixelsD sD =
      .ok (restD, push_pixel pixelsD (diffPixelSpec sD.prev bd) sD.is_alpha,
        update_state (diffPixelSpec sD.prev bd) sD)) ∧
    (qoi_op_luma (b1 :: b2 :: restL) pixelsL sL =
      .ok (restL, push_pixel pixelsL (lumaPixelSpec sL.prev b1 b2) sL.is_alpha,
        update_state (lumaPixelSpec sL.prev b1 b2) sL)) := by
  intro bd b1 b2 restD restL pixelsD pixelsL sD sL
  intro hbd htd hrD hgD hbD hb1 hb2 htl hrL hgL hbL
  constructor
  · rw [qoi_op_diff_ok htd]
    have hpx :
        (⟨wadd sD.prev.red (wsub ((bd &&& 48) >>> 4) 2),
          wadd sD.prev.green (wsub ((bd &&& 12) >>> 2) 2),
          wadd sD.prev.blue (wsub (bd &&& 3) 2), sD.prev.alpha⟩ : Pixel) =
          diffPixelSpec sD.prev bd := by
      unfold diffPixelSpec
      rw [and48_shr4 bd hbd, and12_shr2 bd hbd, and3_eq bd hbd]
      simp only [Pixel.mk.injEq]
      refine ⟨?_, ?_, ?_, trivial⟩
      · exact diff_channel_eq _ _ hrD (Nat.mod_lt _ (by norm_num))
      · exact diff_channel_eq _ _ hgD (Nat.mod_lt _ (by norm_num))
      · exact diff_channel_eq _ _ hbD (Nat.mod_lt _ (by norm_num))
    rw [hpx]
  · rw [qoi_op_luma_ok htl]
    have hpx :
        (⟨wadd sL.prev.red (wadd (wsub (b1 &&& 63) 32) (wsub ((b2 &&& 240) >>> 4) 8)),
          wadd sL.prev.green (wsub (b1 &&& 63) 32),
          wadd sL.prev.blue (wadd (wsub (b1 &&& 63) 32) (wsub (b2 &&& 15) 8)),
          sL.prev.alpha⟩ : Pixel) = lumaPixelSpec sL.prev b1 b2 := by
      unfold lumaPixelSpec
      rw [and63_eq b1 hb1, and240_shr4 b2 hb2, and15_eq b2 hb2]
      simp only [Pixel.mk.injEq]
      refine ⟨?_, ?_, ?_, trivial⟩
      · exact luma_rb_eq _ _ _ hrL (Nat.mod_lt _ (by norm_num)) (Nat.div_lt_of_lt_mul (by omega))
      · exact luma_green_eq _ _ hgL (Nat.mod_lt _ (by norm_num))
      · exact luma_rb_eq _ _ _ hbL (Nat.mod_lt _ (by norm_num)) (Nat.mod_lt _ (by norm_num))
    rw [hpx]

/-- C6 (witness): LUMA bytes `0b10100011 0b10001000` (green delta +3,
nibble deltas 0) applied after `previous = (254, 10, 20, 255)`: the
red channel wraps from 254 by +3 to 1, not saturating at 255. -/
theorem qoi_op_diff_luma_c6_witness :
    (qoi_op_diff (65 :: []) []
        ⟨⟨254, 10, 20, 255⟩, fun _ => Pixel.zero, false⟩ =
      .ok ([], push_pixel [] (diffPixelSpec ⟨254, 10, 20, 255⟩ 65) false,
        update_state (diffPixelSpec ⟨254, 10, 20, 255⟩ 65)
          ⟨⟨254, 10, 20, 255⟩, fun _ => Pixel.zero, false⟩)) ∧
    (qoi_op_luma (163 :: 136 :: []) []
        ⟨⟨254, 10, 20, 255⟩, fun _ => Pixel.zero, false⟩ =
      .ok ([], push_pixel [] (lumaPixelSpec ⟨254, 10, 20, 255⟩ 163 136) false,
        update_state (lumaPixelSpec ⟨254, 10, 20, 255⟩ 163 136)
          ⟨⟨254, 10, 20, 255⟩, fun _ => Pixel.zero, false⟩)) ∧
    (lumaPixelSpec ⟨254, 10, 20, 255⟩ 163 136).red = 1 :=
  ⟨(qoi_op_diff_luma_c6 65 163 136 [] [] [] []
      ⟨⟨254, 10, 20, 255⟩, fun _ => Pixel.zero, false⟩
      ⟨⟨254, 10, 20, 255⟩, fun _ => Pixel.zero, false⟩
      (by decide) (by decide) (by decide) (by decide) (by decide)
      (by decide) (by decide) (by decide) (by decide) (by decide) (by decide)).1,
   (qoi_op_diff_luma_c6 65 163 136 [] [] [] []
      ⟨⟨254, 10, 20, 255⟩, fun _ => Pixel.zero, false⟩
      ⟨⟨254, 10, 20, 255⟩, fun _ => Pixel.zero, false⟩
      (by decide) (by decide) (by decide) (by decide) (by decide)
      (by decide) (by decide) (by decide) (by decide) (by decide) (by decide)).2,
   by decide⟩

/-- C2 (counterexample): for the header `{width 2^30, height 4, RGBA}`,
whose true byte count `2^34` overflows `u32`, decoding the empty
payload succeeds with a buffer whose length is not
`width*height*channel_count` — the exact-length guarantee of the claim
fails for overflowing headers. -/
theorem content_length_overflow_counterexample :
    parse_image_content [] ⟨1073741824, 4, .Rgba, .Srgb⟩ = .ok [] ∧
    ([] : List Nat).length ≠ 1073741824 * 4 * 4 := by
  refine ⟨rfl, by norm_num⟩

/-- C2 (amended): for byte-sized payloads, if `parse_image_content`
succeeds the buffer length is exactly `resultLen`, i.e.
`width*height*channel_count` reduced modulo `2^32` (the product is
computed in wrapping `u32` arithmetic); if the decode loop finishes
with fewer bytes than that target (including aborting inside an
opcode whose bytes ran out) the result is `TooFewPixels`; if it
finishes with more, `TooManyPixels`; and every failure is one of
those two errors. -/
theorem parse_image_content_of_loop_ok {bytes : List Nat} {header : Header}
    {pixels : List Nat}
    (h : decodeLoop bytes.length bytes [] (initState header) = .ok pixels) :
    parse_image_content bytes header =
      if pixels.length < resultLen header then .error .TooFewPixels
      else if resultLen header < pixels.length then .error .TooManyPixels
      else .ok pixels := by
  unfold parse_image_content
  rw [h]

theorem parse_image_content_of_loop_error {bytes : List Nat} {header : Header}
    {e : DecoderError}
    (h : decodeLoop bytes.length bytes [] (initState header) = .error e) :
    parse_image_content bytes header = .error e := by
  unfold parse_image_content
  rw [h]

theorem parse_image_content_c2 : ∀ (bytes : List Nat) (header : Header),
    (∀ x ∈ bytes, x < 256) →
    (∀ buf, parse_image_content bytes header = .ok buf →
      buf.length = resultLen header) ∧
    (∀ pixels, decodeLoop bytes.length bytes [] (initState header) = .ok pixels →
      pixels.length < resultLen header →
      parse_image_content bytes header = .error .TooFewPixels) ∧
    (∀ pixels, decodeLoop bytes.length bytes [] (initState header) = .ok pixels →
      resultLen header < pixels.length →
      parse_image_content bytes header = .error .TooManyPixels) ∧
    (∀ e, parse_image_content bytes header = .error e →
      e = .TooFewPixels ∨ e = .TooManyPixels) := by
  intro bytes header hb
  refine ⟨?_, ?_, ?_, ?_⟩
  · intro buf h
    cases hl : decodeLoop bytes.length bytes [] (initState header) with
    | error e => rw [parse_image_content_of_loop_error hl] at h; exact absurd h (by simp)
    | ok pixels =>
      rw [parse_image_content_of_loop_ok hl] at h
      by_cases h1 : pixels.length < resultLen header
      · rw [if_pos h1] at h; exact absurd h (by simp)
      · rw [if_neg h1] at h
        by_cases h2 : resultLen header < pixels.length
        · rw [if_pos h2] at h; exact absurd h (by simp)
        · rw [if_neg h2] at h
          have hpb : pixels = buf := Except.ok.inj h
          rw [← hpb]
          omega
  · intro pixels hl hlt
    rw [parse_image_content_of_loop_ok hl, if_pos hlt]
  · intro pixels hl hgt
    rw [parse_image_content_of_loop_ok hl, if_neg (by omega), if_pos hgt]
  · intro e h
    cases hl : decodeLoop bytes.length bytes [] (initState header) with
    | error e2 =>
      rw [parse_image_content_of_loop_error hl] at h
      have he : e2 = e := Except.error.inj h
      exact .inl (he ▸ decodeLoop_error_eq bytes.length (le_refl _) hb hl)
    | ok pixels =>
      rw [parse_image_content_of_loop_ok hl] at h
      by_cases h1 : pixels.length < resultLen header
      · rw [if_pos h1] at h
        exact .inl (Except.error.inj h).symm
      · rw [if_neg h1] at h
        by_cases h2 : resultLen header < pixels.length
        · rw [if_pos h2] at h
          exact .inr (Except.error.inj h).symm
        · rw [if_neg h2] at h
          exact absurd h (by simp)

/-- C2 (witness): `parse_image_content_c2` instantiated at the empty
payload and a 1×1 RGB header. -/
theorem parse_image_content_c2_witness :
    (∀ buf, parse_image_content [] ⟨1, 1, .Rgb, .Srgb⟩ = .ok buf →
      buf.length = resultLen ⟨1, 1, .Rgb, .Srgb⟩) ∧
    (∀ pixels, decodeLoop ([] : List Nat).length [] [] (initState ⟨1, 1, .Rgb, .Srgb⟩) =
        .ok pixels →
      pixels.length < resultLen ⟨1, 1, .Rgb, .Srgb⟩ →
      parse_image_content [] ⟨1, 1, .Rgb, .Srgb⟩ = .error .TooFewPixels) ∧
    (∀ pixels, decodeLoop ([] : List Nat).length [] [] (initState ⟨1, 1, .Rgb, .Srgb⟩) =
        .ok pixels →
      resultLen ⟨1, 1, .Rgb, .Srgb⟩ < pixels.length →
      parse_image_content [] ⟨1, 1, .Rgb, .Srgb⟩ = .error .TooManyPixels) ∧
    (∀ e, parse_image_content [] ⟨1, 1, .Rgb, .Srgb⟩ = .error e →
      e = .TooFewPixels ∨ e = .TooManyPixels) :=
  parse_image_content_c2 [] ⟨1, 1, .Rgb, .Srgb⟩ (by decide)

theorem header_magic_fail (bytes : List Nat)
    (hm : bytes.take 4 ≠ [113, 111, 105, 102]) :
    parse_image_header bytes = .error .InvalidMagic := by
  unfold parse_image_header tag
  by_cases hlen : bytes.length < ([113, 111, 105, 102] : List Nat).length
  · rw [if_pos hlen]
  · rw [if_neg hlen, if_neg (by simpa using hm)]

theorem header_full_eq (w3 w2 w1 w0 h3 h2 h1 h0 ch cs : Nat) :
    parse_image_header [113, 111, 105, 102, w3, w2, w1, w0, h3, h2, h1, h0, ch, cs] =
      if ch = 3 ∨ ch = 4 then
        if cs = 0 ∨ cs = 1 then
          .ok ⟨w3 * 16777216 + w2 * 65536 + w1 * 256 + w0,
               h3 * 16777216 + h2 * 65536 + h1 * 256 + h0,
               if ch = 3 then .Rgb else .Rgba,
               if cs = 0 then .Srgb else .Linear⟩
        else .error .InvalidColorspace
      else .error .InvalidChannels := by
  by_cases hch3 : ch = 3 <;> by_cases hch4 : ch = 4 <;>
    by_cases hcs0 : cs = 0 <;> by_cases hcs1 : cs = 1 <;>
      simp [parse_image_header, tag, be_u32, u8, hch3, hch4, hcs0, hcs1]

/-- C9: a 14-byte input with the magic recovers `width`/`height` as
big-endian u32s and channels/colorspace exactly as encoded; a channel
byte other than 3/4 yields `InvalidChannels`; a colorspace byte other
than 0/1 (with valid channels) yields `InvalidColorspace`; and any
input whose first 4 bytes are not the magic yields `InvalidMagic`,
regardless of the remaining fields. -/
theorem parse_image_header_c9 :
    (∀ w3 w2 w1 w0 h3 h2 h1 h0 ch cs : Nat,
      parse_image_header [113, 111, 105, 102, w3, w2, w1, w0, h3, h2, h1, h0, ch, cs] =
        if ch = 3 ∨ ch = 4 then
          if cs = 0 ∨ cs = 1 then
            .ok ⟨w3 * 16777216 + w2 * 65536 + w1 * 256 + w0,
                 h3 * 16777216 + h2 * 65536 + h1 * 256 + h0,
                 if ch = 3 then .Rgb else .Rgba,
                 if cs = 0 then .Srgb else .Linear⟩
          else .error .InvalidColorspace
        else .error .InvalidChannels) ∧
    (∀ bytes : List Nat, bytes.take 4 ≠ [113, 111, 105, 102] →
      parse_image_header bytes = .error .InvalidMagic) :=
  ⟨header_full_eq, header_magic_fail⟩

/-- C9 (witness): the header bytes for magic + BE32(42) + BE32(69) +
channels 3 + colorspace 0 decode to `Header {42, 69, RGB, sRGB}`; a
wrong magic with otherwise valid fields gives `InvalidMagic`; channel
byte 5 gives `InvalidChannels`; colorspace byte 2 gives
`InvalidColorspace`. -/
theorem parse_image_header_c9_witness :
    parse_image_header [113, 111, 105, 102, 0, 0, 0, 42, 0, 0, 0, 69, 3, 0] =
      .ok ⟨42, 69, .Rgb, .Srgb⟩ ∧
    parse_image_header [113, 111, 106, 102, 0, 0, 0, 42, 0, 0, 0, 69, 3, 0] =
      .error .InvalidMagic ∧
    parse_image_header [113, 111, 105, 102, 0, 0, 0, 42, 0, 0, 0, 69, 5, 0] =
      .error .InvalidChannels ∧
    parse_image_header [113, 111, 105, 102, 0, 0, 0, 42, 0, 0, 0, 69, 3, 2] =
      .error .InvalidColorspace := by
  refine ⟨?_, parse_image_header_c9.2 _ (by decide), ?_, ?_⟩
  · have h := parse_image_header_c9.1 0 0 0 42 0 0 0 69 3 0
    simpa using h
  · have h := parse_image_header_c9.1 0 0 0 42 0 0 0 69 5 0
    simpa using h
  · have h := parse_image_header_c9.1 0 0 0 42 0 0 0 69 3 2
    simpa using h

/-- C8 (counterexample): the empty input (fewer than 14 bytes, indeed
fewer than the 4-byte magic) fails with `InvalidMagic`, not
`TooShortHeader`: the magic `tag` read maps its too-short failure to
`InvalidMagic`. -/
theorem short_header_gives_invalid_magic :
    parse_image_header [] = .error .InvalidMagic ∧
    DecoderError.InvalidMagic ≠ DecoderError.TooShortHeader :=
  ⟨rfl, by decide⟩

/-- C8 (amended): for every input of fewer than 14 bytes,
`parse_image_header` fails — with `InvalidMagic` when the first
`min(4, length)` bytes are not the magic (in particular for all inputs
shorter than 4 bytes); with `InvalidChannels` when the input is
exactly 13 bytes, starts with the magic, and its channel byte (index
12) is neither 3 nor 4; and with `TooShortHeader` otherwise. -/
theorem parse_image_header_short_c8 : ∀ bytes : List Nat, bytes.length < 14 →
    parse_image_header bytes =
      .error (if bytes.take 4 = [113, 111, 105, 102] then
                (if bytes.length = 13 ∧ bytes.getD 12 0 ≠ 3 ∧ bytes.getD 12 0 ≠ 4
                 then .InvalidChannels else .TooShortHeader)
              else .InvalidMagic) := by
  intro bytes hlen
  by_cases hmagic : bytes.take 4 = [113, 111, 105, 102]
  · rw [if_pos hmagic]
    have hbytes : bytes = [113, 111, 105, 102] ++ bytes.drop 4 := by
      rw [← hmagic]
      exact (List.take_append_drop 4 bytes).symm
    obtain ⟨rest, hrest⟩ : ∃ rest, bytes.drop 4 = rest := ⟨_, rfl⟩
    have hrl : rest.length < 10 := by
      rw [← hrest]
      simp
      omega
    rw [hrest] at hbytes
    rw [hbytes]
    unfold parse_image_header
    rw [tag_append]
    rcases rest with _ | ⟨b4, _ | ⟨b5, _ | ⟨b6, _ | ⟨b7, _ | ⟨b8, _ | ⟨b9, _ | ⟨b10,
      _ | ⟨b11, _ | ⟨b12, rest2⟩⟩⟩⟩⟩⟩⟩⟩⟩
    · simp [be_u32]
    · simp [be_u32]
    · simp [be_u32]
    · simp [be_u32]
    · simp [be_u32]
    · simp [be_u32]
    · simp [be_u32]
    · simp [be_u32]
    · simp [be_u32, u8]
    · rcases rest2 with _ | ⟨x, r2⟩
      · by_cases hch3 : b12 = 3
        · simp [be_u32, u8, hch3, List.getD]
        · by_cases hch4 : b12 = 4
          · simp [be_u32, u8, hch4, List.getD]
          · simp [be_u32, u8, hch3, hch4, List.getD]
      · simp at hrl
        omega
  · rw [if_neg hmagic]
    exact header_magic_fail bytes hmagic

/-- C8 (witness): `parse_image_header_short_c8` at the empty input and
at a 13-byte magic-prefixed input whose channel byte is 7. -/
theorem parse_image_header_short_c8_witness :
    (([] : List Nat).length < 14 ∧
      parse_image_header [] =
        .error (if ([] : List Nat).take 4 = [113, 111, 105, 102] then
                  (if ([] : List Nat).length = 13 ∧ ([] : List Nat).getD 12 0 ≠ 3 ∧
                      ([] : List Nat).getD 12 0 ≠ 4
                   then .InvalidChannels else .TooShortHeader)
                else .InvalidMagic)) ∧
    parse_image_header [113, 111, 105, 102, 0, 0, 0, 1, 0, 0, 0, 1, 7] =
      .error (if ([113, 111, 105, 102, 0, 0, 0, 1, 0, 0, 0, 1, 7] : List Nat).take 4 =
                [113, 111, 105, 102] then
                (if ([113, 111, 105, 102, 0, 0, 0, 1, 0, 0, 0, 1, 7] : List Nat).length = 13 ∧
                    ([113, 111, 105, 102, 0, 0, 0, 1, 0, 0, 0, 1, 7] : List Nat).getD 12 0 ≠ 3 ∧
                    ([113, 111, 105, 102, 0, 0, 0, 1, 0, 0, 0, 1, 7] : List Nat).getD 12 0 ≠ 4
                 then .InvalidChannels else .TooShortHeader)
              else .InvalidMagic) :=
  ⟨⟨by decide, parse_image_header_short_c8 [] (by decide)⟩,
   parse_image_header_short_c8 [113, 111, 105, 102, 0, 0, 0, 1, 0, 0, 0, 1, 7] (by decide)⟩
